import Mathlib

/-!
A Lean model of the core trading logic of the Crypto-arbitrage-trader
repository, translated from the Python sources:

* `orderbook/Orderbook.py` — price levels as association lists (the Python
  `OrderedDict`, whose first entry is the best price), `reduceBidQuantity`,
  `reduceAskQuantity`, `liquidate`;
* `wallet/SimulatedWallet.py` — balances, trade fees, withdrawal fees,
  `withdraw`, `deposit`, `getBalance`;
* `trading/CrossTrade.py` — the four-state cross-exchange trade machine;
* `algo/Trader.py` — the two greedy direction loops;
* `simulate.py` — one tick of the main loop over pending trades.

Prices, quantities and timestamps are modelled as rationals; Python
exceptions (`KeyError`, `TypeError`, `ZeroDivisionError`) are modelled as
`Option.none`.  Loops are modelled with explicit fuel; running out of fuel
marks a loop that has not yet exited.
-/

set_option allowUnsafeReducibility true in
attribute [semireducible] Rat.add Rat.sub Rat.mul Rat.inv Rat.ofScientific Rat.div

/-- Lookup in an association list (a Python `dict` access that may raise
`KeyError`), returning the first binding of the key. -/
def assocLookup {α β : Type} [DecidableEq α] : List (α × β) → α → Option β
  | [], _ => none
  | (k, v) :: rest, key => if k = key then some v else assocLookup rest key

/-- Replacement of the first binding of a key (a Python `dict` assignment to
an existing key, which keeps the entry's position). -/
def assocReplace {α β : Type} [DecidableEq α] : List (α × β) → α → β → List (α × β)
  | [], _, _ => []
  | (k, v) :: rest, key, newV =>
      if k = key then (k, newV) :: rest else (k, v) :: assocReplace rest key newV

/-- Removal of the first binding of a key (Python `dict.pop` on a present
key). -/
def assocPop {α β : Type} [DecidableEq α] : List (α × β) → α → List (α × β)
  | [], _ => []
  | (k, v) :: rest, key => if k = key then rest else (k, v) :: assocPop rest key

/-- An order book side is an association list from price to quantity; the
first entry is the best price (the iteration order of the `OrderedDict`). -/
structure Orderbook where
  bids : List (ℚ × ℚ)
  asks : List (ℚ × ℚ)
deriving DecidableEq, Repr

/-- Python `Orderbook.getHighestBid`: the first bid entry, or `(None, None)`
on an empty book (modelled as `none`). -/
def getHighestBid (ob : Orderbook) : Option (ℚ × ℚ) :=
  ob.bids.head?

/-- Python `Orderbook.getLowestAsk`: the first ask entry, or `(None, None)`
on an empty book (modelled as `none`). -/
def getLowestAsk (ob : Orderbook) : Option (ℚ × ℚ) :=
  ob.asks.head?

/-- The body of `Orderbook.reduceBidQuantity`/`reduceAskQuantity` acting on
one side's levels: reduce the level at `price` by `quantity`, popping it when
it reaches zero, and return the amount reduced by together with the updated
levels.  Accessing an absent price raises `KeyError`, modelled as `none`. -/
def reduceLevels (levels : List (ℚ × ℚ)) (price quantity : ℚ) : Option (ℚ × List (ℚ × ℚ)) :=
  match assocLookup levels price with
  | none => none
  | some old =>
      let newQuantity := max (old - quantity) 0
      let levels' := if newQuantity ≤ 0 then assocPop levels price
                     else assocReplace levels price newQuantity
      some (old - newQuantity, levels')

/-- Python `Orderbook.reduceBidQuantity`: `reduceLevels` on the bid side. -/
def reduceBidQuantity (ob : Orderbook) (price quantity : ℚ) : Option (ℚ × Orderbook) :=
  (reduceLevels ob.bids price quantity).map (fun r => (r.1, { ob with bids := r.2 }))

/-- Python `Orderbook.reduceAskQuantity`: `reduceLevels` on the ask side. -/
def reduceAskQuantity (ob : Orderbook) (price quantity : ℚ) : Option (ℚ × Orderbook) :=
  (reduceLevels ob.asks price quantity).map (fun r => (r.1, { ob with asks := r.2 }))

/-- The `while` loop of `Orderbook.liquidate`, with explicit fuel, acting on
the bid levels.  Each iteration takes the best bid price and reduces it by
the still-unsold remainder, accumulating the amount sold and the base
currency received. -/
def liquidateGo : Nat → List (ℚ × ℚ) → ℚ → ℚ → ℚ → ℚ × ℚ × List (ℚ × ℚ)
  | 0, bids, _, amountSold, baseCurrencyReceived => (amountSold, baseCurrencyReceived, bids)
  | fuel + 1, bids, quantity, amountSold, baseCurrencyReceived =>
      if amountSold < quantity then
        match bids with
        | [] => (amountSold, baseCurrencyReceived, bids)
        | (price, _) :: _ =>
            match reduceLevels bids price (quantity - amountSold) with
            | none => (amountSold, baseCurrencyReceived, bids)
            | some (amount, bids2) =>
                if amount = 0 then (amountSold, baseCurrencyReceived, bids2)
                else liquidateGo fuel bids2 quantity (amountSold + amount)
                      (baseCurrencyReceived + amount * price)
      else (amountSold, baseCurrencyReceived, bids)

/-- Python `Orderbook.liquidate`: sell as much as possible, up to `quantity`,
against the bids.  The loop performs at most `bids.length + 1` iterations
(each non-final iteration pops a level), so that much fuel is exact. -/
def liquidate (ob : Orderbook) (quantity : ℚ) : ℚ × ℚ × Orderbook :=
  let r := liquidateGo (ob.bids.length + 1) ob.bids quantity 0 0
  (r.1, r.2.1, { ob with bids := r.2.2 })

/-- Python `SimulatedWallet`: the base-currency amount, the per-trade fee,
the non-base balances and the per-currency withdrawal fees. -/
structure SimulatedWallet where
  baseCurrencyAmount : ℚ
  baseCurrencyName : String
  binanceFee : ℚ
  balances : List (String × ℚ)
  withdrawalFees : List (String × ℚ)
deriving DecidableEq, Repr

/-- Python `SimulatedWallet.getWithdrawalFee`: the stored fee, or 0 when the
ticker has no entry. -/
def getWithdrawalFee (w : SimulatedWallet) (ticker : String) : ℚ :=
  (assocLookup w.withdrawalFees ticker).getD 0

/-- Python `SimulatedWallet.getTradeFee`. -/
def getTradeFee (w : SimulatedWallet) : ℚ :=
  w.binanceFee

/-- Python `SimulatedWallet.getBalance`: the base-currency amount for the
base currency, the stored balance for a known ticker, 0 otherwise. -/
def getBalance (w : SimulatedWallet) (ticker : String) : ℚ :=
  if ticker = w.baseCurrencyName then w.baseCurrencyAmount
  else (assocLookup w.balances ticker).getD 0

/-- Python `SimulatedWallet.withdraw`: remove `amount` plus the withdrawal
fee, clamping the balance at zero.  On a non-base ticker with no balance
entry the Python raises `KeyError`, modelled as `none`. -/
def withdraw (w : SimulatedWallet) (amount : ℚ) (ticker : String) : Option SimulatedWallet :=
  let fee := getWithdrawalFee w ticker
  if ticker = w.baseCurrencyName then
    some { w with baseCurrencyAmount := max (w.baseCurrencyAmount - amount - fee) 0 }
  else
    match assocLookup w.balances ticker with
    | none => none
    | some b => some { w with balances := assocReplace w.balances ticker (max (b - amount - fee) 0) }

/-- Python `SimulatedWallet.deposit`: add `amount` to the balance.  On a
non-base ticker with no balance entry the Python raises `KeyError`. -/
def deposit (w : SimulatedWallet) (amount : ℚ) (ticker : String) : Option SimulatedWallet :=
  if ticker = w.baseCurrencyName then
    some { w with baseCurrencyAmount := w.baseCurrencyAmount + amount }
  else
    match assocLookup w.balances ticker with
    | none => none
    | some b => some { w with balances := assocReplace w.balances ticker (b + amount) }

/-- The two order books and two wallets of the simulation (`orderbooks` and
`wallets` lists of `simulate.py`, always of length 2). -/
structure Env where
  ob0 : Orderbook
  ob1 : Orderbook
  w0 : SimulatedWallet
  w1 : SimulatedWallet
deriving DecidableEq, Repr

/-- `orderbooks[i]` for the exchange indices 0 and 1. -/
def getOb (e : Env) (i : Nat) : Orderbook :=
  if i = 0 then e.ob0 else e.ob1

/-- In-place update of `orderbooks[i]`. -/
def setOb (e : Env) (i : Nat) (ob : Orderbook) : Env :=
  if i = 0 then { e with ob0 := ob } else { e with ob1 := ob }

/-- `wallets[i]` for the exchange indices 0 and 1. -/
def getW (e : Env) (i : Nat) : SimulatedWallet :=
  if i = 0 then e.w0 else e.w1

/-- In-place update of `wallets[i]`. -/
def setW (e : Env) (i : Nat) (w : SimulatedWallet) : Env :=
  if i = 0 then { e with w0 := w } else { e with w1 := w }

/-- The mutable fields of a Python `CrossTrade` object.  Timestamps are in
nanoseconds.  `amountInTradedCurrency` is only assigned by step 0 in the
Python (it starts out absent); here it starts at 0. -/
structure TradeState where
  exchangeBoughtFrom : Nat
  exchangeSoldTo : Nat
  currency : String
  baseCurrency : String
  currentStep : Nat
  amountSold : ℚ
  amountToTransferBack : ℚ
  transferStartTime : ℚ
  tradedCurrencyTransferTime : ℚ
  baseCurrencyTransferTime : ℚ
  amountInTradedCurrency : ℚ
deriving DecidableEq, Repr

/-- Python `CrossTrade.__init__`: 1 second for the traded-currency transfer,
360 seconds for the base-currency transfer. -/
def mkCrossTrade (exchangeBoughtFrom exchangeSoldTo : Nat) (currency baseCurrency : String) :
    TradeState :=
  { exchangeBoughtFrom := exchangeBoughtFrom
    exchangeSoldTo := exchangeSoldTo
    currency := currency
    baseCurrency := baseCurrency
    currentStep := 0
    amountSold := 0
    amountToTransferBack := 0
    transferStartTime := 0
    tradedCurrencyTransferTime := 1000000000
    baseCurrencyTransferTime := 360000000000
    amountInTradedCurrency := 0 }

/-- Python `CrossTrade.step`, with the current time `now` passed explicitly
(the Python reads `time.time_ns()`).  Returns `(done, trade, env)`, or `none`
when the Python raises: a `TypeError` from `min`/division on the `None` best
level of an empty book side, a `ZeroDivisionError` on a zero ask price, or a
`KeyError` from the wallet. -/
def crossTradeStep (now : ℚ) (t : TradeState) (env : Env) : Option (Bool × TradeState × Env) :=
  if t.currentStep = 0 then
    let balance1 := getBalance (getW env t.exchangeBoughtFrom) t.baseCurrency
    if balance1 ≤ 0 then some (true, t, env)
    else
      match getLowestAsk (getOb env t.exchangeBoughtFrom),
            getHighestBid (getOb env t.exchangeSoldTo) with
      | some (purchasablePrice, purchasableAmount), some (_, sellableAmount) =>
          if purchasablePrice = 0 then none
          else
            let amountInTradedCurrency := min purchasableAmount sellableAmount
            let amountPurchasable := balance1 / purchasablePrice
            let amountInTradedCurrency := min amountInTradedCurrency amountPurchasable
            if amountInTradedCurrency ≤ 0 then
              some (true, { t with amountInTradedCurrency := amountInTradedCurrency }, env)
            else
              match reduceAskQuantity (getOb env t.exchangeBoughtFrom) purchasablePrice
                      amountInTradedCurrency with
              | none => none
              | some (_, ob') =>
                  let env1 := setOb env t.exchangeBoughtFrom ob'
                  let amountInTradedCurrency :=
                    amountInTradedCurrency * (1 - getTradeFee (getW env1 t.exchangeBoughtFrom))
                  let amountInBaseCurrency := amountInTradedCurrency * purchasablePrice
                  match withdraw (getW env1 t.exchangeBoughtFrom) amountInBaseCurrency
                          t.baseCurrency with
                  | none => none
                  | some w' =>
                      some (false,
                        { t with amountInTradedCurrency := amountInTradedCurrency
                                 transferStartTime := now
                                 currentStep := 1 },
                        setW env1 t.exchangeBoughtFrom w')
      | _, _ => none
  else if t.currentStep = 1 then
    if now < t.transferStartTime + t.tradedCurrencyTransferTime then some (false, t, env)
    else some (false, { t with currentStep := 2 }, env)
  else if t.currentStep = 2 then
    let r := liquidate (getOb env t.exchangeSoldTo) t.amountInTradedCurrency
    let amount := r.1
    let baseCurrencyReceived := r.2.1
    let env1 := setOb env t.exchangeSoldTo r.2.2
    let amountSold := t.amountSold + amount
    let transferBackAmount :=
      baseCurrencyReceived * (1 - getTradeFee (getW env1 t.exchangeSoldTo))
        - getWithdrawalFee (getW env1 t.exchangeSoldTo) t.baseCurrency
    let amountToTransferBack := t.amountToTransferBack + transferBackAmount
    if amountSold < t.amountInTradedCurrency then
      some (false,
        { t with amountSold := amountSold, amountToTransferBack := amountToTransferBack }, env1)
    else
      some (false,
        { t with amountSold := amountSold
                 amountToTransferBack := amountToTransferBack
                 currentStep := 3
                 transferStartTime := now }, env1)
  else if t.currentStep = 3 then
    if now < t.transferStartTime + t.tradedCurrencyTransferTime then some (false, t, env)
    else
      match deposit (getW env t.exchangeBoughtFrom) t.amountToTransferBack t.baseCurrency with
      | none => none
      | some w' => some (true, t, setW env t.exchangeBoughtFrom w')
  else some (false, t, env)

/-- The currency pair the `Trader` works on. -/
structure TraderCfg where
  tradedCurrency : String
  baseCurrency : String
deriving DecidableEq, Repr

/-- The first `while True` loop of `Trader.step` (buy at exchange 0, sell at
exchange 1), with fuel.  The Python guard `if not lowestAsk[0] or not
highestBid[0]: break` treats both `None` and a zero price as falsy.  The
returned boolean is true when the loop exited by `break`, false when the fuel
ran out with the loop still running. -/
def dir0Go (cfg : TraderCfg) (now : ℚ) :
    Nat → Env → List TradeState → Option (Bool × Env × List TradeState)
  | 0, env, trades => some (false, env, trades)
  | fuel + 1, env, trades =>
      match getLowestAsk (getOb env 0), getHighestBid (getOb env 1) with
      | some (askPrice, askQty), some (bidPrice, bidQty) =>
          if askPrice = 0 ∨ bidPrice = 0 then some (true, env, trades)
          else
            let quantity := min askQty bidQty
            let notionalTraded0 :=
              askPrice * (1 + getTradeFee (getW env 0)) * quantity
                + askPrice * getWithdrawalFee (getW env 0) cfg.tradedCurrency
                + getWithdrawalFee (getW env 0) cfg.baseCurrency
            let notionalTraded1 := bidPrice * (1 - getTradeFee (getW env 1)) * quantity
            if notionalTraded0 < notionalTraded1 then
              match crossTradeStep now (mkCrossTrade 0 1 cfg.tradedCurrency cfg.baseCurrency)
                      env with
              | none => none
              | some (_, t', env') => dir0Go cfg now fuel env' (trades ++ [t'])
            else some (true, env, trades)
      | _, _ => some (true, env, trades)

/-- The second `while True` loop of `Trader.step` (buy at exchange 1, sell at
exchange 0), with fuel. -/
def dir1Go (cfg : TraderCfg) (now : ℚ) :
    Nat → Env → List TradeState → Option (Bool × Env × List TradeState)
  | 0, env, trades => some (false, env, trades)
  | fuel + 1, env, trades =>
      match getHighestBid (getOb env 0), getLowestAsk (getOb env 1) with
      | some (bidPrice, bidQty), some (askPrice, askQty) =>
          if bidPrice = 0 ∨ askPrice = 0 then some (true, env, trades)
          else
            let quantity := min askQty bidQty
            let notionalTraded0 := bidPrice * (1 - getTradeFee (getW env 0)) * quantity
            let notionalTraded1 :=
              askPrice * (1 + getTradeFee (getW env 1)) * quantity
                + askPrice * getWithdrawalFee (getW env 1) cfg.tradedCurrency
                + getWithdrawalFee (getW env 1) cfg.baseCurrency
            if notionalTraded0 > notionalTraded1 then
              match crossTradeStep now (mkCrossTrade 1 0 cfg.tradedCurrency cfg.baseCurrency)
                      env with
              | none => none
              | some (_, t', env') => dir1Go cfg now fuel env' (trades ++ [t'])
            else some (true, env, trades)
      | _, _ => some (true, env, trades)

/-- Python `Trader.step`: run the two greedy direction loops in order and
return the created trades.  The completion flag is true when both loops
exited by `break` within the given fuel. -/
def traderStep (cfg : TraderCfg) (now : ℚ) (fuel : Nat) (env : Env) :
    Option (Bool × Env × List TradeState) :=
  match dir0Go cfg now fuel env [] with
  | none => none
  | some (c0, env1, trades0) =>
      match dir1Go cfg now fuel env1 [] with
      | none => none
      | some (c1, env2, trades1) => some (c0 && c1, env2, trades0 ++ trades1)

/-- The `for i in range(len(currentTrades))` loop of `simulate.py`: step every
trade once, in list order, threading the environment, and record each trade's
post-step state together with its `done` flag. -/
def stepLoop (now : ℚ) : Env → List TradeState → Option (Env × List (TradeState × Bool))
  | env, [] => some (env, [])
  | env, t :: rest =>
      match crossTradeStep now t env with
      | none => none
      | some (done, t2, env2) =>
          match stepLoop now env2 rest with
          | none => none
          | some (env3, flagged) => some (env3, (t2, done) :: flagged)

/-- The `toPop` list built by the loop of `simulate.py`: the indices (from
`start`) of the trades whose step reported completion, in ascending order. -/
def toPopOf : Nat → List (TradeState × Bool) → List Nat
  | _, [] => []
  | i, (_, done) :: rest => if done then i :: toPopOf (i + 1) rest else toPopOf (i + 1) rest

/-- Python `list.pop(i)`: remove the element at index `i`. -/
def popAt {α : Type} : List α → Nat → List α
  | [], _ => []
  | _ :: rest, 0 => rest
  | x :: rest, n + 1 => x :: popAt rest n

/-- The `for i in range(len(toPop)): currentTrades.pop(toPop[i] - i)` loop of
`simulate.py`, with `k` the number of trades popped so far. -/
def popFold {α : Type} : List α → List Nat → Nat → List α
  | l, [], _ => l
  | l, i :: is, k => popFold (popAt l (i - k)) is (k + 1)

/-- One tick of the `while True` loop of `simulate.py` (the trading part):
call `Trader.step`, append the returned trades to the pending list, step
every trade in the combined list once, and remove the completed ones.
Returns the new environment, the surviving trades, and the combined list in
the order in which the loop stepped it. -/
def tick (cfg : TraderCfg) (now : ℚ) (fuel : Nat) (env : Env) (pending : List TradeState) :
    Option (Env × List TradeState × List TradeState) :=
  match traderStep cfg now fuel env with
  | none => none
  | some (_, env1, newTrades) =>
      let currentTrades := pending ++ newTrades
      match stepLoop now env1 currentTrades with
      | none => none
      | some (env2, flagged) =>
          some (env2, popFold (flagged.map (fun x => x.1)) (toPopOf 0 flagged) 0, currentTrades)

/-- Total quantity on a book side. -/
def levelVolume (levels : List (ℚ × ℚ)) : ℚ :=
  (levels.map (fun l => l.2)).sum

/-- Total notional (price times quantity) on a book side. -/
def levelNotional (levels : List (ℚ × ℚ)) : ℚ :=
  (levels.map (fun l => l.1 * l.2)).sum

/-- A `SimulatedWallet` as built in `simulate.py`: USDT base currency, a
starting base amount, a trade fee and per-currency withdrawal fees. -/
def mkUsdtWallet (amount fee : ℚ) (withdrawalFees : List (String × ℚ)) : SimulatedWallet :=
  { baseCurrencyAmount := amount
    baseCurrencyName := "USDT"
    binanceFee := fee
    balances := []
    withdrawalFees := withdrawalFees }

/-- The currency pair of `simulate.py`: XNO traded against USDT. -/
def cfgXNO : TraderCfg :=
  { tradedCurrency := "XNO", baseCurrency := "USDT" }

/-- A freshly created XNO/USDT trade buying at exchange 0, selling at 1. -/
def tXNO : TradeState :=
  mkCrossTrade 0 1 "XNO" "USDT"

/-- Scenario for the LIQUIDATE state: a trade holding 3 XNO, destination
book with only 2 XNO of bid depth at price 10. -/
def envLiqA : Env :=
  { ob0 := { bids := [], asks := [] }
    ob1 := { bids := [(10, 2)], asks := [] }
    w0 := mkUsdtWallet 1000 0 []
    w1 := mkUsdtWallet 1000 0 [] }

/-- A trade in state 2 holding 3 XNO. -/
def tLiq : TradeState :=
  { tXNO with currentStep := 2, amountInTradedCurrency := 3 }

/-- The trade after the first partial liquidation: 2 sold, 20 received. -/
def tLiqMid : TradeState :=
  { tXNO with currentStep := 2, amountInTradedCurrency := 3, amountSold := 2,
              amountToTransferBack := 20 }

/-- `envLiqA` with the destination bids consumed. -/
def envLiqA' : Env :=
  { envLiqA with ob1 := { bids := [], asks := [] } }

/-- The destination book repopulated with 3 XNO of bid depth at price 10. -/
def envLiqB : Env :=
  { envLiqA with ob1 := { bids := [(10, 3)], asks := [] } }

/-- The trade after the second liquidation call: 5 XNO sold in total. -/
def tLiqFin : TradeState :=
  { tXNO with currentStep := 3, amountInTradedCurrency := 3, amountSold := 5,
              amountToTransferBack := 50 }

/-- `envLiqB` with the repopulated bids consumed as well. -/
def envLiqB' : Env :=
  { envLiqB with ob1 := { bids := [], asks := [] } }

/-- A trade in state 3 with 50 USDT to transfer back, transfer started at 0. -/
def tBack : TradeState :=
  { tXNO with currentStep := 3, transferStartTime := 0, amountToTransferBack := 50 }

/-- Empty books, 100 USDT in each wallet. -/
def envBack : Env :=
  { ob0 := { bids := [], asks := [] }
    ob1 := { bids := [], asks := [] }
    w0 := mkUsdtWallet 100 0 []
    w1 := mkUsdtWallet 100 0 [] }

/-- `envBack` after the transfer-back deposit of 50 USDT. -/
def envBack' : Env :=
  { envBack with w0 := mkUsdtWallet 150 0 [] }

/-- The concrete BUY scenario: source ask (10.00, 5), destination bid
(10.20, 3), trade fees 0.001, no withdrawal fees, 1000 USDT balances. -/
def envBuy : Env :=
  { ob0 := { bids := [], asks := [(10, 5)] }
    ob1 := { bids := [(10.2, 3)], asks := [] }
    w0 := mkUsdtWallet 1000 0.001 []
    w1 := mkUsdtWallet 1000 0.001 [] }

/-- The BUY scenario with the source base-currency balance at zero. -/
def envIdle : Env :=
  { envBuy with w0 := mkUsdtWallet 0 0.001 [] }

/-- The BUY scenario with no asks at all on the source book. -/
def envNoAsk : Env :=
  { envBuy with ob0 := { bids := [], asks := [] } }

/-- A book with one bid level and one ask level, neither at price 5. -/
def obMissing : Orderbook :=
  { bids := [(10, 2)], asks := [(11, 4)] }

/-- Books with ask (10, 3) at exchange 0 and bid (12, 3) at exchange 1, no
trade fees, and a 1 XNO withdrawal fee at exchange 0. -/
def envNoTrade : Env :=
  { ob0 := { bids := [], asks := [(10, 3)] }
    ob1 := { bids := [(12, 3)], asks := [] }
    w0 := mkUsdtWallet 1000 0 [("XNO", 1)]
    w1 := mkUsdtWallet 1000 0 [] }

/-- As `envNoTrade` but with a 0.1 XNO withdrawal fee, making the crossing
profitable for the code's cost formula as well. -/
def envProfit : Env :=
  { envNoTrade with w0 := mkUsdtWallet 1000 0 [("XNO", 0.1)] }

/-- A book with bids (10, 2) and (9, 4). -/
def obLiqW : Orderbook :=
  { bids := [(10, 2), (9, 4)], asks := [] }

/-- Books for a tick: ask (10, 3) at exchange 0, bid (12, 5) at exchange 1,
no fees. -/
def envTick : Env :=
  { ob0 := { bids := [], asks := [(10, 3)] }
    ob1 := { bids := [(12, 5)], asks := [] }
    w0 := mkUsdtWallet 1000 0 []
    w1 := mkUsdtWallet 1000 0 [] }

/-- A previously pending trade, transferring since time 0 in state 1. -/
def tPending : TradeState :=
  { tXNO with currentStep := 1, transferStartTime := 0, amountInTradedCurrency := 7 }

/-- The trade spawned by `Trader.step` in `envTick` at time 5e9 (already
stepped once at creation). -/
def tSpawned : TradeState :=
  { tXNO with currentStep := 1, transferStartTime := 5000000000, amountInTradedCurrency := 3 }

/-- `envTick` after the spawned trade's creation step: ask level consumed,
30 USDT withdrawn. -/
def envTickMid : Env :=
  { envTick with ob0 := { bids := [], asks := [] }, w0 := mkUsdtWallet 970 0 [] }

/-- `tPending` after one more step: its transfer has completed. -/
def tPendingStepped : TradeState :=
  { tPending with currentStep := 2 }

/-- A wallet holding 100 USDT and 5 XNO, with a 0.5 XNO withdrawal fee. -/
def wC10 : SimulatedWallet :=
  { baseCurrencyAmount := 100
    baseCurrencyName := "USDT"
    binanceFee := 0
    balances := [("XNO", 5)]
    withdrawalFees := [("XNO", 0.5)] }

/-- C1: in state 2 (LIQUIDATE) each `step` call passes the full
`amountInTradedCurrency` — not the unsold remainder — to `liquidate`.  After
a partial fill of 2 out of 3 and a repopulated destination book, the second
call sells 3 more, so `amountSold` reaches 5 and exceeds the held quantity
3: the code sells currency the trade does not hold. -/
theorem C1_state2_oversells :
    crossTradeStep 0 tLiq envLiqA = some (false, tLiqMid, envLiqA') ∧
    crossTradeStep 0 tLiqMid envLiqB = some (false, tLiqFin, envLiqB') ∧
    tLiqFin.amountSold = 5 ∧ tLiqFin.amountInTradedCurrency = 3 ∧
    ¬ tLiqFin.amountSold ≤ tLiqFin.amountInTradedCurrency := by
  decide

/-- C2: in state 3 (TRANSFER_BACK) the code waits on
`tradedCurrencyTransferTime` (1 second), not `baseCurrencyTransferTime`
(360 seconds): at 2 seconds after `transferStartTime` — far less than the
base-currency transfer time — `step` already deposits the 50 USDT and
returns done. -/
theorem C2_transferBack_wrong_constant :
    crossTradeStep 2000000000 tBack envBack = some (true, tBack, envBack') ∧
    envBack'.w0.baseCurrencyAmount = 150 ∧
    (2000000000 : ℚ) < tBack.transferStartTime + tBack.baseCurrencyTransferTime := by
  decide

/-- C3 counterexample: in the concrete BUY scenario the source balance
becomes 970.03, i.e. it decreases by 29.97 = q·(1−fee)·askPrice, not by the
pre-fee cost 30.00 = q·askPrice the claim states. -/
theorem C3_counterexample :
    (crossTradeStep 0 tXNO envBuy).map (fun r => getBalance (getW r.2.2 0) "USDT")
      = some (970.03 : ℚ) ∧
    (970.03 : ℚ) ≠ 1000 - 3 * 10 := by
  decide

/-- C5 counterexample: with a positive source balance but no ask at the
source book, state-0 `step` raises a `TypeError` (the `min` of `None` and a
number), modelled as `none`, instead of completing with `True`. -/
theorem C5_counterexample :
    0 < getBalance (getW envNoAsk 0) "USDT" ∧
    getLowestAsk (getOb envNoAsk 0) = none ∧
    crossTradeStep 0 tXNO envNoAsk = none := by
  decide

/-- C6 counterexample: reducing a bid or an ask at a price with no level
raises `KeyError` (modelled as `none`); it is not a silent no-op returning
0 with the book unchanged. -/
theorem C6_counterexample :
    reduceBidQuantity obMissing 5 1 = none ∧
    reduceAskQuantity obMissing 5 1 = none ∧
    reduceBidQuantity obMissing 5 1 ≠ some (0, obMissing) := by
  decide

/-- C7 counterexample: with ask (10, 3), bid (12, 3) and a 1 XNO withdrawal
fee, the claim's cost `askPrice·(1+fee)·q + withdrawalFee(traded) +
withdrawalFee(base)` = 31 is below the proceeds 36, yet `Trader.step`
creates no trade, because the code's cost multiplies the traded-currency
withdrawal fee by the ask price (10·1 = 10, cost 40 ≥ 36). -/
theorem C7_counterexample :
    getLowestAsk (getOb envNoTrade 0) = some (10, 3) ∧
    getHighestBid (getOb envNoTrade 1) = some (12, 3) ∧
    10 * (1 + getTradeFee (getW envNoTrade 0)) * 3
        + getWithdrawalFee (getW envNoTrade 0) "XNO"
        + getWithdrawalFee (getW envNoTrade 0) "USDT"
      < 12 * (1 - getTradeFee (getW envNoTrade 1)) * 3 ∧
    traderStep cfgXNO 0 100 envNoTrade = some (true, envNoTrade, []) := by
  decide

/-- In `envIdle` (zero source balance, profitable crossing) one iteration of
the first `Trader.step` loop spawns a trade whose creation step performs no
mutation, so the loop body maps the state to itself. -/
theorem dir0Go_idle_aux : ∀ (n : Nat) (ts : List TradeState),
    dir0Go cfgXNO 0 n envIdle ts = some (false, envIdle, ts ++ List.replicate n tXNO) := by
  intro n
  induction n with
  | zero => intro ts; simp [dir0Go]
  | succ k ih =>
      intro ts
      have hstep : dir0Go cfgXNO 0 (k + 1) envIdle ts
          = dir0Go cfgXNO 0 k envIdle (ts ++ [tXNO]) := by rfl
      rw [hstep, ih]
      simp [List.replicate_succ, List.append_assoc]

/-- C4: `Trader.step` does not terminate on every input.  With a zero source
base-currency balance and a profitable crossing (`envIdle`), every amount of
fuel leaves the first direction loop still running (completion flag
`false`), with the environment unchanged and one spawned trade per
iteration: the loop body is a fixed point that spawns trades forever. -/
theorem C4_trader_loop_diverges (n : Nat) :
    dir0Go cfgXNO 0 n envIdle [] = some (false, envIdle, List.replicate n tXNO) := by
  simpa using dir0Go_idle_aux n []

/-- A successful lookup survives `assocReplace` at the same key, returning
the new value. -/
theorem assocLookup_replace {α β : Type} [DecidableEq α]
    (l : List (α × β)) (key : α) (v : β) (h : assocLookup l key ≠ none) :
    assocLookup (assocReplace l key v) key = some v := by
  induction l with
  | nil => simp [assocLookup] at h
  | cons hd tl ih =>
      obtain ⟨k, w⟩ := hd
      by_cases hk : k = key
      · simp [assocLookup, assocReplace, hk]
      · simp only [assocLookup, assocReplace, if_neg hk]
        exact ih (by simpa [assocLookup, if_neg hk] using h)

/-- C10: `withdraw` on the base currency or on a ticker with an existing
balance succeeds and sets the balance to
`max (old − amount − withdrawalFee) 0`: the fee is deducted on top of the
requested amount and the balance is clamped at zero. -/
theorem C10_withdraw_spec (w : SimulatedWallet) (amount : ℚ) (ticker : String)
    (hamt : 0 ≤ amount)
    (hex : ticker = w.baseCurrencyName ∨ assocLookup w.balances ticker ≠ none) :
    ∃ w', withdraw w amount ticker = some w' ∧
      getBalance w' ticker = max (getBalance w ticker - amount - getWithdrawalFee w ticker) 0 := by
  by_cases hb : ticker = w.baseCurrencyName
  · set w' := { w with baseCurrencyAmount := max (w.baseCurrencyAmount - amount - getWithdrawalFee w ticker) 0 } with hw'
    refine ⟨w', ?_, ?_⟩
    · simp [withdraw, if_pos hb, hw']
    · simp [getBalance, if_pos hb, hw']
  · have hlook : assocLookup w.balances ticker ≠ none := hex.resolve_left hb
    obtain ⟨b, hbv⟩ := Option.ne_none_iff_exists'.mp hlook
    set w' := { w with balances := assocReplace w.balances ticker (max (b - amount - getWithdrawalFee w ticker) 0) } with hw'
    refine ⟨w', ?_, ?_⟩
    · simp [withdraw, if_neg hb, hbv, hw']
    · simp [getBalance, if_neg hb, hbv, hw',
        assocLookup_replace w.balances ticker _ hlook]

/-- C10 witness: withdrawing 2 XNO from a wallet holding 5 XNO with a 0.5
XNO withdrawal fee leaves 2.5 XNO. -/
theorem C10_withdraw_witness :
    0 ≤ (2 : ℚ) ∧
    ("XNO" = wC10.baseCurrencyName ∨ assocLookup wC10.balances "XNO" ≠ none) ∧
    ∃ w', withdraw wC10 2 "XNO" = some w' ∧
      getBalance w' "XNO" = max (getBalance wC10 "XNO" - 2 - getWithdrawalFee wC10 "XNO") 0 := by
  refine ⟨by decide, Or.inr (by decide), C10_withdraw_spec wC10 2 "XNO" (by decide) (Or.inr (by decide))⟩

/-- C9 counterexample: in a tick with one pending trade and one newly
spawned trade, the `for` loop of `simulate.py` steps the previously pending
trade first (the new trades are appended at the end of `currentTrades`), so
the stepping order is `[tPending, tSpawned]`, not the claimed new-first
order `[tSpawned, tPending]`. -/
theorem C9_counterexample :
    (tick cfgXNO 5000000000 10 envTick [tPending]).map (fun r => r.2.2)
      = some [tPending, tSpawned] ∧
    tPending ≠ tSpawned ∧
    ([tPending, tSpawned] : List TradeState) ≠ [tSpawned, tPending] := by
  decide

/-- Unfolding `levelVolume` on a cons cell. -/
theorem levelVolume_cons (p : ℚ × ℚ) (t : List (ℚ × ℚ)) :
    levelVolume (p :: t) = p.2 + levelVolume t := by simp [levelVolume]

/-- Unfolding `levelNotional` on a cons cell. -/
theorem levelNotional_cons (p : ℚ × ℚ) (t : List (ℚ × ℚ)) :
    levelNotional (p :: t) = p.1 * p.2 + levelNotional t := by simp [levelNotional]

/-- A book side of positive levels has nonnegative total volume. -/
theorem levelVolume_nonneg (l : List (ℚ × ℚ)) (h : ∀ x ∈ l, 0 < x.2) : 0 ≤ levelVolume l := by
  induction l with
  | nil => simp [levelVolume]
  | cons hd tl ih =>
      rw [levelVolume_cons]
      have h1 := h hd (by simp)
      have h2 := ih (fun x hx => h x (by simp [hx]))
      linarith

/-- Invariants of the `liquidate` loop: the amount sold grows, never passes
the target, equals the volume removed from the book, the proceeds equal the
notional removed, positivity of levels is preserved, and with fuel
`bids.length + 1` the loop only stops at the target or on an empty book. -/
theorem liquidateGo_spec : ∀ (fuel : Nat) (bids : List (ℚ × ℚ)) (q sold rec : ℚ),
    (∀ l ∈ bids, 0 < l.2) → sold ≤ q →
    sold ≤ (liquidateGo fuel bids q sold rec).1 ∧
    (liquidateGo fuel bids q sold rec).1 ≤ q ∧
    (liquidateGo fuel bids q sold rec).1 - sold
      = levelVolume bids - levelVolume (liquidateGo fuel bids q sold rec).2.2 ∧
    (liquidateGo fuel bids q sold rec).2.1 - rec
      = levelNotional bids - levelNotional (liquidateGo fuel bids q sold rec).2.2 ∧
    (∀ l ∈ (liquidateGo fuel bids q sold rec).2.2, 0 < l.2) ∧
    (bids.length + 1 ≤ fuel →
      ((liquidateGo fuel bids q sold rec).1 = q ∨ (liquidateGo fuel bids q sold rec).2.2 = [])) := by
  intro fuel
  induction fuel with
  | zero =>
      intro bids q sold rec hpos hsq
      simp only [liquidateGo]
      refine ⟨le_refl _, hsq, by simp, by simp, hpos, ?_⟩
      intro h; omega
  | succ n ih =>
      intro bids q sold rec hpos hsq
      by_cases hlt : sold < q
      · rcases bids with _ | ⟨⟨price, old⟩, tail⟩
        · simp only [liquidateGo, if_pos hlt]
          refine ⟨le_refl _, hsq, by simp, by simp, by simp, ?_⟩
          intro _
          simp
        · have hold : 0 < old := by
            have := hpos (price, old) (List.mem_cons_self _ _)
            simpa using this
          have htailpos : ∀ l ∈ tail, 0 < l.2 := fun l hl => hpos l (List.mem_cons_of_mem _ hl)
          by_cases hpop : max (old - (q - sold)) 0 ≤ 0
          · -- level popped entirely; amount = old
            have hmax0 : max (old - (q - sold)) 0 = 0 := le_antisymm hpop (le_max_right _ _)
            have hle : old ≤ q - sold := by
              have h2 : old - (q - sold) ≤ 0 := le_trans (le_max_left _ _) hpop
              linarith
            have hred : reduceLevels ((price, old) :: tail) price (q - sold)
                = some (old, tail) := by
              simp [reduceLevels, assocLookup, assocPop, hpop, hmax0]
            have hrw : liquidateGo (n + 1) ((price, old) :: tail) q sold rec
                = liquidateGo n tail q (sold + old) (rec + old * price) := by
              simp only [liquidateGo, if_pos hlt, hred]
              rw [if_neg (by exact ne_of_gt hold)]
            have hsq2 : sold + old ≤ q := by linarith
            obtain ⟨m1, m2, m3, m4, m5, m6⟩ := ih tail q (sold + old) (rec + old * price) htailpos hsq2
            rw [hrw]
            refine ⟨by linarith, m2, ?_, ?_, m5, ?_⟩
            · rw [levelVolume_cons]; simp only at m3 ⊢; linarith
            · rw [levelNotional_cons]; simp only at m4 ⊢; linarith
            · intro hfuel
              apply m6
              simp at hfuel
              omega
          · -- level partially consumed; amount = q - sold, the loop exits next
            have hmaxpos : 0 < old - (q - sold) := by
              by_contra hc
              push_neg at hc
              exact hpop (by simp [max_le_iff, hc])
            have hmaxeq : max (old - (q - sold)) 0 = old - (q - sold) :=
              max_eq_left (le_of_lt hmaxpos)
            have hcond : ¬ (old - (q - sold) ≤ 0) := not_le.mpr hmaxpos
            have hred : reduceLevels ((price, old) :: tail) price (q - sold)
                = some (q - sold, (price, old - (q - sold)) :: tail) := by
              simp [reduceLevels, assocLookup, assocReplace, hmaxeq, hcond, sub_sub_cancel]
            have hamne : ¬ (q - sold = 0) := by
              intro h
              rw [sub_eq_zero] at h
              rw [h] at hlt
              exact lt_irrefl _ hlt
            have hrw : liquidateGo (n + 1) ((price, old) :: tail) q sold rec
                = liquidateGo n ((price, old - (q - sold)) :: tail) q (sold + (q - sold))
                    (rec + (q - sold) * price) := by
              simp only [liquidateGo, if_pos hlt, hred]
              rw [if_neg hamne]
            have hpos2 : ∀ l ∈ (price, old - (q - sold)) :: tail, 0 < l.2 := by
              intro l hl
              rcases List.mem_cons.mp hl with h | h
              · rw [h]; simpa using hmaxpos
              · exact htailpos l h
            have hsq2 : sold + (q - sold) ≤ q := by linarith
            obtain ⟨m1, m2, m3, m4, m5, m6⟩ :=
              ih ((price, old - (q - sold)) :: tail) q (sold + (q - sold)) (rec + (q - sold) * price)
                hpos2 hsq2
            rw [hrw]
            have hres : (liquidateGo n ((price, old - (q - sold)) :: tail) q (sold + (q - sold))
                (rec + (q - sold) * price)).1 = q := by
              exact le_antisymm m2 (by linarith [m1])
            refine ⟨by linarith [hres], m2, ?_, ?_, m5, fun _ => Or.inl hres⟩
            · rw [levelVolume_cons]
              rw [levelVolume_cons] at m3
              simp only at m3 ⊢
              linarith
            · rw [levelNotional_cons]
              rw [levelNotional_cons] at m4
              ring_nf at m4 ⊢
              linarith
      · simp only [liquidateGo, if_neg hlt]
        refine ⟨le_refl _, hsq, by simp, by simp, hpos, ?_⟩
        intro _
        exact Or.inl (le_antisymm hsq (not_lt.mp hlt))

/-- C8: `liquidate` never sells more than the target, never sells more than
the total bid volume present, returns proceeds exactly equal to the notional
removed from the book, and stops only once the target is reached or the bids
are exhausted (for a nonnegative target on a book of positive levels). -/
theorem C8_liquidate_spec (ob : Orderbook) (q : ℚ)
    (hq : 0 ≤ q) (hpos : ∀ l ∈ ob.bids, 0 < l.2) :
    (liquidate ob q).1 ≤ q ∧
    (liquidate ob q).1 ≤ levelVolume ob.bids ∧
    (liquidate ob q).2.1 = levelNotional ob.bids - levelNotional (liquidate ob q).2.2.bids ∧
    ((liquidate ob q).1 = q ∨ (liquidate ob q).2.2.bids = []) := by
  obtain ⟨m1, m2, m3, m4, m5, m6⟩ := liquidateGo_spec (ob.bids.length + 1) ob.bids q 0 0 hpos hq
  have hres := m6 (le_refl _)
  refine ⟨?_, ?_, ?_, ?_⟩
  · simpa [liquidate] using m2
  · have hnn : 0 ≤ levelVolume (liquidateGo (ob.bids.length + 1) ob.bids q 0 0).2.2 :=
      levelVolume_nonneg _ m5
    simp only [liquidate]
    linarith [m3]
  · simp only [liquidate]
    linarith [m4]
  · simpa [liquidate] using hres

/-- C8 witness: liquidating 5 against bids (10, 2) and (9, 4) sells exactly
5 for proceeds 47 and leaves (9, 1) on the book. -/
theorem C8_liquidate_witness :
    (0 : ℚ) ≤ 5 ∧ (∀ l ∈ obLiqW.bids, 0 < l.2) ∧
    ((liquidate obLiqW 5).1 ≤ 5 ∧
     (liquidate obLiqW 5).1 ≤ levelVolume obLiqW.bids ∧
     (liquidate obLiqW 5).2.1
       = levelNotional obLiqW.bids - levelNotional (liquidate obLiqW 5).2.2.bids ∧
     ((liquidate obLiqW 5).1 = 5 ∨ (liquidate obLiqW 5).2.2.bids = [])) :=
  ⟨by decide, by decide, C8_liquidate_spec obLiqW 5 (by decide) (by decide)⟩

/-- Reading back the order book just stored at the same index. -/
theorem getOb_setOb_self (e : Env) (i : Nat) (ob : Orderbook) : getOb (setOb e i ob) i = ob := by
  by_cases h : i = 0 <;> simp [getOb, setOb, h]

/-- Storing an order book leaves the wallets unchanged. -/
theorem getW_setOb (e : Env) (i j : Nat) (ob : Orderbook) : getW (setOb e i ob) j = getW e j := by
  by_cases h : i = 0 <;> by_cases h2 : j = 0 <;> simp [getW, setOb, h, h2]

/-- Storing a wallet leaves the order books unchanged. -/
theorem getOb_setW (e : Env) (i j : Nat) (w : SimulatedWallet) : getOb (setW e i w) j = getOb e j := by
  by_cases h : i = 0 <;> by_cases h2 : j = 0 <;> simp [getOb, setW, h, h2]

/-- Reading back the wallet just stored at the same index. -/
theorem getW_setW_self (e : Env) (i : Nat) (w : SimulatedWallet) : getW (setW e i w) i = w := by
  by_cases h : i = 0 <;> simp [getW, setW, h]

/-- The main path of `CrossTrade.step` in state 0: with a positive balance,
a best ask `(ap, aq)` at the source, a best bid at the destination, a
positive ask price and a positive purchasable quantity, the step removes the
purchasable quantity from the source ask level, applies the trade fee to the
held amount, withdraws the post-fee cost plus the withdrawal fee from the
source base-currency balance, and moves to state 1. -/
theorem step0_spec (t : TradeState) (env : Env) (now ap aq bp bq b : ℚ) (restA : List (ℚ × ℚ))
    (hstep : t.currentStep = 0)
    (hasks : (getOb env t.exchangeBoughtFrom).asks = (ap, aq) :: restA)
    (hbids : getHighestBid (getOb env t.exchangeSoldTo) = some (bp, bq))
    (hbal : getBalance (getW env t.exchangeBoughtFrom) t.baseCurrency = b)
    (hb : 0 < b) (hap : 0 < ap)
    (hbase : t.baseCurrency = (getW env t.exchangeBoughtFrom).baseCurrencyName)
    (hq : 0 < min (min aq bq) (b / ap)) :
    crossTradeStep now t env = some (false,
      { t with
          amountInTradedCurrency :=
            min (min aq bq) (b / ap) * (1 - getTradeFee (getW env t.exchangeBoughtFrom)),
          transferStartTime := now,
          currentStep := 1 },
      setW (setOb env t.exchangeBoughtFrom
          { getOb env t.exchangeBoughtFrom with
              asks := if aq - min (min aq bq) (b / ap) ≤ 0 then restA
                      else (ap, aq - min (min aq bq) (b / ap)) :: restA })
        t.exchangeBoughtFrom
        { getW env t.exchangeBoughtFrom with
            baseCurrencyAmount :=
              max (b - min (min aq bq) (b / ap) * (1 - getTradeFee (getW env t.exchangeBoughtFrom)) * ap
                    - getWithdrawalFee (getW env t.exchangeBoughtFrom) t.baseCurrency) 0 }) := by
  have hlow : getLowestAsk (getOb env t.exchangeBoughtFrom) = some (ap, aq) := by
    rw [getLowestAsk, hasks]; rfl
  have hbalpos : ¬ (getBalance (getW env t.exchangeBoughtFrom) t.baseCurrency ≤ 0) := by
    rw [hbal]; exact not_le.mpr hb
  have hwamount : (getW env t.exchangeBoughtFrom).baseCurrencyAmount = b := by
    rw [getBalance, if_pos hbase] at hbal; exact hbal
  have hlookup : assocLookup ((ap, aq) :: restA) ap = some aq := by simp [assocLookup]
  have hredAsk : reduceAskQuantity (getOb env t.exchangeBoughtFrom) ap (min (min aq bq) (b / ap))
      = some (aq - max (aq - min (min aq bq) (b / ap)) 0,
          { getOb env t.exchangeBoughtFrom with
              asks := if aq - min (min aq bq) (b / ap) ≤ 0 then restA
                      else (ap, aq - min (min aq bq) (b / ap)) :: restA }) := by
    by_cases hcase : aq - min (min aq bq) (b / ap) ≤ 0
    · have hm : max (aq - min (min aq bq) (b / ap)) 0 = 0 := max_eq_right hcase
      have hc2 : max (aq - min (min aq bq) (b / ap)) 0 ≤ 0 := le_of_eq hm
      simp only [reduceAskQuantity, hasks, reduceLevels, hlookup, if_pos hc2, if_pos hcase,
        Option.map_some]
      simp [assocPop]
    · have hm : max (aq - min (min aq bq) (b / ap)) 0 = aq - min (min aq bq) (b / ap) :=
        max_eq_left (le_of_lt (not_le.mp hcase))
      have hc2 : ¬ (max (aq - min (min aq bq) (b / ap)) 0 ≤ 0) := by rw [hm]; exact hcase
      simp only [reduceAskQuantity, hasks, reduceLevels, hlookup, if_neg hc2, if_neg hcase,
        Option.map_some]
      simp [assocReplace, hm]
  have hbnot : ¬ (b ≤ 0) := not_le.mpr hb
  simp only [crossTradeStep, hstep, hbal, hlow, hbids, eq_self_iff_true, if_true,
    if_neg hbnot, if_neg (ne_of_gt hap), if_neg (not_le.mpr hq), hredAsk, getW_setOb,
    getTradeFee, withdraw, getWithdrawalFee, if_pos hbase, hwamount]

/-- C3 (amended): in state 0, step determines
q = min(best-ask qty, best-bid qty, balance/askPrice), removes q from the
source ask level, and withdraws q·(1−feeSource)·askPrice (the post-fee
cost) plus the base-currency withdrawal fee from the source base-currency
balance, leaving the destination book untouched.  (The claim's pre-fee
withdrawal of q·askPrice is what `C3_counterexample` refutes.) -/
theorem C3_buy_step_spec (t : TradeState) (env : Env) (now ap aq bp bq b : ℚ)
    (restA : List (ℚ × ℚ))
    (hstep : t.currentStep = 0)
    (hdir : t.exchangeBoughtFrom = 0 ∧ t.exchangeSoldTo = 1 ∨
            t.exchangeBoughtFrom = 1 ∧ t.exchangeSoldTo = 0)
    (hasks : (getOb env t.exchangeBoughtFrom).asks = (ap, aq) :: restA)
    (hbids : getHighestBid (getOb env t.exchangeSoldTo) = some (bp, bq))
    (hbal : getBalance (getW env t.exchangeBoughtFrom) t.baseCurrency = b)
    (hb : 0 < b) (hap : 0 < ap)
    (hbase : t.baseCurrency = (getW env t.exchangeBoughtFrom).baseCurrencyName)
    (hq : 0 < min (min aq bq) (b / ap)) :
    ∃ env', crossTradeStep now t env = some (false,
        { t with
            amountInTradedCurrency :=
              min (min aq bq) (b / ap) * (1 - getTradeFee (getW env t.exchangeBoughtFrom)),
            transferStartTime := now,
            currentStep := 1 }, env') ∧
      (getOb env' t.exchangeBoughtFrom).asks
        = (if aq - min (min aq bq) (b / ap) ≤ 0 then restA
           else (ap, aq - min (min aq bq) (b / ap)) :: restA) ∧
      getBalance (getW env' t.exchangeBoughtFrom) t.baseCurrency
        = max (b - min (min aq bq) (b / ap) * (1 - getTradeFee (getW env t.exchangeBoughtFrom)) * ap
               - getWithdrawalFee (getW env t.exchangeBoughtFrom) t.baseCurrency) 0 ∧
      getOb env' t.exchangeSoldTo = getOb env t.exchangeSoldTo := by
  refine ⟨_, step0_spec t env now ap aq bp bq b restA hstep hasks hbids hbal hb hap hbase hq,
    ?_, ?_, ?_⟩
  · rw [getOb_setW, getOb_setOb_self]
  · rw [getW_setW_self, getBalance, if_pos hbase]
  · rcases hdir with ⟨h1, h2⟩ | ⟨h1, h2⟩ <;>
      rw [h1, h2] <;> simp [getOb, setOb, setW]

/-- C5 (amended): a state-0 CrossTrade whose source balance is ≤ 0, or whose
computed purchasable quantity is ≤ 0, completes on its first step call with
no mutation of any order book or wallet; but when the balance is positive
and the source has no best ask or the destination no best bid, step raises
(`none`), instead of completing. -/
theorem C5_state0_degenerate (t : TradeState) (env : Env) (now : ℚ)
    (hstep : t.currentStep = 0) :
    (getBalance (getW env t.exchangeBoughtFrom) t.baseCurrency ≤ 0 →
      crossTradeStep now t env = some (true, t, env)) ∧
    (∀ ap aq bp bq : ℚ,
      0 < getBalance (getW env t.exchangeBoughtFrom) t.baseCurrency →
      getLowestAsk (getOb env t.exchangeBoughtFrom) = some (ap, aq) →
      getHighestBid (getOb env t.exchangeSoldTo) = some (bp, bq) →
      ap ≠ 0 →
      min (min aq bq) (getBalance (getW env t.exchangeBoughtFrom) t.baseCurrency / ap) ≤ 0 →
      crossTradeStep now t env
        = some (true,
            { t with
                amountInTradedCurrency :=
                  min (min aq bq)
                    (getBalance (getW env t.exchangeBoughtFrom) t.baseCurrency / ap) },
            env)) ∧
    (0 < getBalance (getW env t.exchangeBoughtFrom) t.baseCurrency →
      (getLowestAsk (getOb env t.exchangeBoughtFrom) = none ∨
       getHighestBid (getOb env t.exchangeSoldTo) = none) →
      crossTradeStep now t env = none) := by
  refine ⟨?_, ?_, ?_⟩
  · intro h
    simp only [crossTradeStep, hstep, eq_self_iff_true, if_true, if_pos h]
  · intro ap aq bp bq hpos hlow hbids hap0 hqle
    simp only [crossTradeStep, hstep, eq_self_iff_true, if_true, if_neg (not_le.mpr hpos),
      hlow, hbids, if_neg hap0, if_pos hqle]
  · intro hpos hnone
    rcases hnone with h | h
    · simp only [crossTradeStep, hstep, eq_self_iff_true, if_true, if_neg (not_le.mpr hpos), h]
    · rcases hfirst : getLowestAsk (getOb env t.exchangeBoughtFrom) with _ | ⟨ap, aq⟩
      · simp only [crossTradeStep, hstep, eq_self_iff_true, if_true,
          if_neg (not_le.mpr hpos), hfirst]
      · simp only [crossTradeStep, hstep, eq_self_iff_true, if_true,
          if_neg (not_le.mpr hpos), hfirst, h]

/-- C5 witness: the amended statement instantiated at `tXNO`/`envNoAsk`. -/
theorem C5_state0_witness :
    (getBalance (getW envNoAsk tXNO.exchangeBoughtFrom) tXNO.baseCurrency ≤ 0 →
      crossTradeStep 0 tXNO envNoAsk = some (true, tXNO, envNoAsk)) ∧
    (∀ ap aq bp bq : ℚ,
      0 < getBalance (getW envNoAsk tXNO.exchangeBoughtFrom) tXNO.baseCurrency →
      getLowestAsk (getOb envNoAsk tXNO.exchangeBoughtFrom) = some (ap, aq) →
      getHighestBid (getOb envNoAsk tXNO.exchangeSoldTo) = some (bp, bq) →
      ap ≠ 0 →
      min (min aq bq)
          (getBalance (getW envNoAsk tXNO.exchangeBoughtFrom) tXNO.baseCurrency / ap) ≤ 0 →
      crossTradeStep 0 tXNO envNoAsk
        = some (true,
            { tXNO with
                amountInTradedCurrency :=
                  min (min aq bq)
                    (getBalance (getW envNoAsk tXNO.exchangeBoughtFrom) tXNO.baseCurrency / ap) },
            envNoAsk)) ∧
    (0 < getBalance (getW envNoAsk tXNO.exchangeBoughtFrom) tXNO.baseCurrency →
      (getLowestAsk (getOb envNoAsk tXNO.exchangeBoughtFrom) = none ∨
       getHighestBid (getOb envNoAsk tXNO.exchangeSoldTo) = none) →
      crossTradeStep 0 tXNO envNoAsk = none) :=
  C5_state0_degenerate tXNO envNoAsk 0 rfl

/-- C6 (amended): reducing a bid or ask at a price with no level on that
side raises `KeyError` (modelled as `none`) rather than being a silent
no-op. -/
theorem C6_reduce_missing (ob : Orderbook) (p q : ℚ)
    (hb : assocLookup ob.bids p = none) (ha : assocLookup ob.asks p = none) :
    reduceBidQuantity ob p q = none ∧ reduceAskQuantity ob p q = none := by
  constructor <;> simp [reduceBidQuantity, reduceAskQuantity, reduceLevels, hb, ha]

/-- C6 witness: price 5 is on neither side of `obMissing`, and both reduce
calls error. -/
theorem C6_reduce_missing_witness :
    assocLookup obMissing.bids 5 = none ∧ assocLookup obMissing.asks 5 = none ∧
    (reduceBidQuantity obMissing 5 1 = none ∧ reduceAskQuantity obMissing 5 1 = none) :=
  ⟨by decide, by decide, C6_reduce_missing obMissing 5 1 (by decide) (by decide)⟩

/-- C3 witness: the concrete scenario — ask (10.00, 5), bid (10.20, 3), fees
0.001, no withdrawal fees, balance 1000 — gives q = 3, heldQuantity 2.997,
ask level left at qty 2, and a new balance of 970.03. -/
theorem C3_buy_step_witness :
    (∃ env', crossTradeStep 0 tXNO envBuy = some (false,
        { tXNO with
            amountInTradedCurrency :=
              min (min 5 3) ((1000 : ℚ) / 10) * (1 - getTradeFee (getW envBuy tXNO.exchangeBoughtFrom)),
            transferStartTime := 0,
            currentStep := 1 }, env') ∧
      (getOb env' tXNO.exchangeBoughtFrom).asks
        = (if (5 : ℚ) - min (min 5 3) (1000 / 10) ≤ 0 then []
           else ((10 : ℚ), (5 : ℚ) - min (min 5 3) (1000 / 10)) :: []) ∧
      getBalance (getW env' tXNO.exchangeBoughtFrom) tXNO.baseCurrency
        = max ((1000 : ℚ)
                - min (min 5 3) (1000 / 10) * (1 - getTradeFee (getW envBuy tXNO.exchangeBoughtFrom)) * 10
                - getWithdrawalFee (getW envBuy tXNO.exchangeBoughtFrom) tXNO.baseCurrency) 0 ∧
      getOb env' tXNO.exchangeSoldTo = getOb envBuy tXNO.exchangeSoldTo) ∧
    min (min (5 : ℚ) 3) (1000 / 10) = 3 ∧
    min (min (5 : ℚ) 3) (1000 / 10) * (1 - getTradeFee (getW envBuy tXNO.exchangeBoughtFrom)) = 2.997 ∧
    (if (5 : ℚ) - min (min 5 3) (1000 / 10) ≤ 0 then ([] : List (ℚ × ℚ))
     else ((10 : ℚ), (5 : ℚ) - min (min 5 3) (1000 / 10)) :: []) = ((10 : ℚ), (2 : ℚ)) :: [] ∧
    max ((1000 : ℚ)
          - min (min 5 3) (1000 / 10) * (1 - getTradeFee (getW envBuy tXNO.exchangeBoughtFrom)) * 10
          - getWithdrawalFee (getW envBuy tXNO.exchangeBoughtFrom) tXNO.baseCurrency) 0 = 970.03 :=
  ⟨C3_buy_step_spec tXNO envBuy 0 10 5 10.2 3 1000 [] rfl (Or.inl ⟨rfl, rfl⟩) (by decide)
      (by decide) (by decide) (by decide) (by decide) (by decide) (by decide),
    by decide, by decide, by decide, by decide⟩

/-- The first `Trader.step` loop only ever appends to its trades
accumulator. -/
theorem dir0Go_trades_mono (cfg : TraderCfg) (now : ℚ) :
    ∀ (fuel : Nat) (env : Env) (ts : List TradeState) (r : Bool × Env × List TradeState),
      dir0Go cfg now fuel env ts = some r → ∃ extra, r.2.2 = ts ++ extra := by
  intro fuel
  induction fuel with
  | zero =>
      intro env ts r h
      simp only [dir0Go] at h
      injection h with h2
      exact ⟨[], by rw [← h2]; simp⟩
  | succ n ih =>
      intro env ts r h
      rcases hA : getLowestAsk (getOb env 0) with _ | ⟨ap, aq⟩ <;>
        rcases hB : getHighestBid (getOb env 1) with _ | ⟨bp, bq⟩ <;>
          simp only [dir0Go, hA, hB] at h
      · injection h with h2
        exact ⟨[], by rw [← h2]; simp⟩
      · injection h with h2
        exact ⟨[], by rw [← h2]; simp⟩
      · injection h with h2
        exact ⟨[], by rw [← h2]; simp⟩
      · split_ifs at h with h1 h2
        · injection h with h2x
          exact ⟨[], by rw [← h2x]; simp⟩
        · rcases hstep : crossTradeStep now (mkCrossTrade 0 1 cfg.tradedCurrency cfg.baseCurrency)
              env with _ | ⟨d, t', env'⟩
          · rw [hstep] at h; exact absurd h (by simp)
          · rw [hstep] at h
            obtain ⟨extra, hx⟩ := ih env' (ts ++ [t']) r h
            exact ⟨[t'] ++ extra, by rw [hx, List.append_assoc]⟩
        · injection h with h2x
          exact ⟨[], by rw [← h2x]; simp⟩

/-- C7 (amended): when the code's cost
`askPrice·(1+feeSrc)·q + askPrice·wFee(traded,src) + wFee(base,src)` is
below the proceeds `bidPrice·(1−feeDst)·q` (q = min(askQty, bidQty)), with
positive prices, quantities and balance, the first iteration of
`Trader.step`'s first loop creates a CrossTrade and steps it, removing
min(q, balance/askPrice) — exactly q, or less if the balance is
insufficient — from the source ask level, and every completed run of the
loop returns a non-empty trade list. -/
theorem C7_profitable_spawns (cfg : TraderCfg) (env : Env) (now ap aq bp bq b : ℚ)
    (restA restB : List (ℚ × ℚ))
    (hasks : (getOb env 0).asks = (ap, aq) :: restA)
    (hbids : (getOb env 1).bids = (bp, bq) :: restB)
    (hbal : getBalance (getW env 0) cfg.baseCurrency = b)
    (hb : 0 < b) (hap : 0 < ap) (hbp : bp ≠ 0)
    (hbase : cfg.baseCurrency = (getW env 0).baseCurrencyName)
    (hq : 0 < min (min aq bq) (b / ap))
    (hprofit : ap * (1 + getTradeFee (getW env 0)) * min aq bq
        + ap * getWithdrawalFee (getW env 0) cfg.tradedCurrency
        + getWithdrawalFee (getW env 0) cfg.baseCurrency
      < bp * (1 - getTradeFee (getW env 1)) * min aq bq) :
    ∃ t' env', crossTradeStep now (mkCrossTrade 0 1 cfg.tradedCurrency cfg.baseCurrency) env
        = some (false, t', env') ∧
      t'.amountInTradedCurrency = min (min aq bq) (b / ap) * (1 - getTradeFee (getW env 0)) ∧
      (getOb env' 0).asks
        = (if aq - min (min aq bq) (b / ap) ≤ 0 then restA
           else (ap, aq - min (min aq bq) (b / ap)) :: restA) ∧
      (∀ n, dir0Go cfg now (n + 1) env [] = dir0Go cfg now n env' [t']) ∧
      (∀ n r, dir0Go cfg now (n + 1) env [] = some r → r.2.2 ≠ []) := by
  have hlowA : getLowestAsk (getOb env 0) = some (ap, aq) := by
    rw [getLowestAsk, hasks]; rfl
  have hhighB : getHighestBid (getOb env 1) = some (bp, bq) := by
    rw [getHighestBid, hbids]; rfl
  have hguard : ¬ (ap = 0 ∨ bp = 0) := by
    push_neg
    exact ⟨ne_of_gt hap, hbp⟩
  have hstep := step0_spec (mkCrossTrade 0 1 cfg.tradedCurrency cfg.baseCurrency) env now
    ap aq bp bq b restA rfl hasks hhighB hbal hb hap hbase hq
  simp only [mkCrossTrade] at hstep
  refine ⟨_, _, hstep, by simp, ?_, ?_, ?_⟩
  · rw [getOb_setW, getOb_setOb_self]
  · intro n
    simp only [dir0Go, mkCrossTrade, hlowA, hhighB, if_neg hguard, if_pos hprofit, hstep,
      List.nil_append]
  · intro n r hr
    simp only [dir0Go, mkCrossTrade, hlowA, hhighB, if_neg hguard, if_pos hprofit, hstep,
      List.nil_append] at hr
    obtain ⟨extra, hx⟩ := dir0Go_trades_mono cfg now n _ _ r hr
    rw [hx]
    simp

/-- C7 witness: ask (10, 3), bid (12, 3), no trade fees, 0.1 XNO withdrawal
fee: cost 31 < proceeds 36, one trade is spawned and the ask level is fully
consumed. -/
theorem C7_profitable_witness :
    (10 : ℚ) * (1 + getTradeFee (getW envProfit 0)) * min 3 3
        + 10 * getWithdrawalFee (getW envProfit 0) cfgXNO.tradedCurrency
        + getWithdrawalFee (getW envProfit 0) cfgXNO.baseCurrency
      < 12 * (1 - getTradeFee (getW envProfit 1)) * min 3 3 ∧
    ∃ t' env', crossTradeStep 0 (mkCrossTrade 0 1 cfgXNO.tradedCurrency cfgXNO.baseCurrency)
        envProfit = some (false, t', env') ∧
      t'.amountInTradedCurrency
        = min (min 3 3) ((1000 : ℚ) / 10) * (1 - getTradeFee (getW envProfit 0)) ∧
      (getOb env' 0).asks
        = (if (3 : ℚ) - min (min 3 3) (1000 / 10) ≤ 0 then []
           else ((10 : ℚ), (3 : ℚ) - min (min 3 3) (1000 / 10)) :: []) ∧
      (∀ n, dir0Go cfgXNO 0 (n + 1) envProfit [] = dir0Go cfgXNO 0 n env' [t']) ∧
      (∀ n r, dir0Go cfgXNO 0 (n + 1) envProfit [] = some r → r.2.2 ≠ []) :=
  ⟨by decide,
    C7_profitable_spawns cfgXNO envProfit 0 10 3 12 3 1000 [] [] (by decide) (by decide)
      (by decide) (by decide) (by decide) (by decide) (by decide) (by decide) (by decide)⟩

/-- `list.pop(i)` at the index right after a prefix removes the head of the
suffix. -/
theorem popAt_append {α : Type} (P : List α) (x : α) (M : List α) :
    popAt (P ++ x :: M) P.length = P ++ M := by
  induction P with
  | nil => simp [popAt]
  | cons h t ih => simp [popAt, ih]

/-- The `pop(toPop[i] - i)` loop of `simulate.py` removes exactly the trades
whose step reported completion: popping the collected indices with the
running offset equals filtering out the done trades. -/
theorem popFold_toPopOf :
    ∀ (flagged : List (TradeState × Bool)) (P : List TradeState) (k : Nat),
      popFold (P ++ flagged.map (fun x => x.1)) (toPopOf (P.length + k) flagged) k
        = P ++ (flagged.filter (fun x => !x.2)).map (fun x => x.1) := by
  intro flagged
  induction flagged with
  | nil => intro P k; simp [toPopOf, popFold]
  | cons hd tl ih =>
      intro P k
      obtain ⟨t, d⟩ := hd
      cases d
      · -- not done: the trade survives and the later indices shift by one
        simp only [toPopOf, List.map_cons]
        rw [if_neg (by simp)]
        rw [List.append_cons]
        have harith : P.length + k + 1 = (P ++ [t]).length + k := by
          simp [List.length_append]
          omega
        rw [harith, ih (P ++ [t]) k]
        simp [List.filter]
      · -- done: pop at the current index, which lands exactly on this trade
        simp only [toPopOf, List.map_cons]
        rw [if_pos trivial]
        simp only [popFold]
        have h2 : P.length + k - k = P.length := by omega
        rw [h2, popAt_append]
        have h3 : P.length + k + 1 = P.length + (k + 1) := rfl
        rw [h3, ih P (k + 1)]
        simp [List.filter]

/-- C9 (amended): in one tick the trades are stepped exactly once each in
the order previously-pending-first (new trades are appended at the end of
`currentTrades`), and the surviving set is exactly the trades whose step did
not report completion. -/
theorem C9_tick_spec (cfg : TraderCfg) (now : ℚ) (fuel : Nat) (env : Env)
    (pending newTrades : List TradeState) (c : Bool) (env1 env2 : Env)
    (flagged : List (TradeState × Bool))
    (h1 : traderStep cfg now fuel env = some (c, env1, newTrades))
    (h2 : stepLoop now env1 (pending ++ newTrades) = some (env2, flagged)) :
    tick cfg now fuel env pending
      = some (env2, (flagged.filter (fun x => !x.2)).map (fun x => x.1),
          pending ++ newTrades) := by
  simp only [tick, h1, h2]
  have h3 := popFold_toPopOf flagged [] 0
  simpa using h3

/-- C9 witness: one pending trade and one newly spawned trade; the tick
steps the pending trade first and keeps both (neither is done). -/
theorem C9_tick_witness :
    traderStep cfgXNO 5000000000 10 envTick = some (true, envTickMid, [tSpawned]) ∧
    stepLoop 5000000000 envTickMid ([tPending] ++ [tSpawned])
      = some (envTickMid, [(tPendingStepped, false), (tSpawned, false)]) ∧
    tick cfgXNO 5000000000 10 envTick [tPending]
      = some (envTickMid,
          (([(tPendingStepped, false), (tSpawned, false)]).filter (fun x => !x.2)).map
            (fun x => x.1),
          [tPending] ++ [tSpawned]) :=
  ⟨by decide, by decide,
    C9_tick_spec cfgXNO 5000000000 10 envTick [tPending] [tSpawned] true envTickMid envTickMid
      [(tPendingStepped, false), (tSpawned, false)] (by decide) (by decide)⟩
